import Mathlib

/-!
Shallow embedding of `digest.go` from mutineer/go-http-auth: the HTTP Digest
authentication verifier (`CheckAuth`), the nonce client cache with its purge
policy (`Purge`, the cache effect of `RequireAuth`), and the session/replay
check.  Stateful Go code is embedded as explicit state passing over an
association list modelling the Go map `DigestAuth.clients`; `time.Now()` is an
explicit `now : Int` parameter; Go `uint64` values produced by
`strconv.ParseUint(s, 16, 64)` are `Nat` values known to be below `2 ^ 64`.
Code that can panic (`Purge`, via the slice expression `cache[:count]`) returns
`Option`, with `none` for the panic.
-/

namespace GoHttpAuth

/-- Go struct `digest_client` (digest.go:17-20): per-nonce session state. -/
structure digest_client where
  nc : Nat
  last_seen : Int
deriving DecidableEq, Repr

/-- The Go map `DigestAuth.clients : map[string]*digest_client` (digest.go:42),
embedded as an association list with unique keys. -/
abbrev Cache := List (String × digest_client)

/-- Configuration fields of Go struct `DigestAuth` (digest.go:22-44).  The
`clients` map and the mutex are modelled as explicit state; `Headers` only
names HTTP headers and is irrelevant to the claims.  The Go field `Opaque`
is called `OpaqueVal` here because the bare name collides with a reserved
word of this development. -/
structure DigestAuth where
  Algorithm : String
  Realm : String
  OpaqueVal : String
  Secrets : String → String → String
  PlainTextSecrets : Bool
  IgnoreNonceCount : Bool
  ClientCacheSize : Nat
  ClientCacheTolerance : Nat

/-- External collaborators of `CheckAuth` that live outside `digest.go`:
the package-level `algorithms` registry (referenced at digest.go:158 but
defined in a file not present in the sources) and Go's `net/url.Parse`
(only the `Path` field of its result is read, digest.go:172-180).
Modelled from the spec: the Hash Registry maps an algorithm name to a digest
function or is absent (§4.2), and the URI check parses the digest `uri` as a
URL and reads its path, any parse failure rejecting (§4.5 step 4). -/
structure Env where
  algorithms : String → Option (String → String)
  urlParsePath : String → Option String

/-- The fields of Go's `*http.Request` read by `CheckAuth`: `r.Method`,
`r.RequestURI` and `r.URL.Path` (`r.URL` may be `nil`, digest.go:175). -/
structure RequestS where
  Method : String
  RequestURI : String
  URLPath : Option String

/-- Lookup in the parsed Authorization parameter map (a Go
`map[string]string`), embedded as an association list. -/
def authLookup (auth0 : List (String × String)) (k : String) : Option String :=
  (auth0.find? (fun p => p.1 == k)).map (fun p => p.2)

/-- Read of `auth[k]` in `CheckAuth` after the defaulting statement
`if _, ok := auth["algorithm"]; !ok { auth["algorithm"] = "MD5" }`
(digest.go:151-153): a missing `algorithm` key reads as `"MD5"`, any other
missing key reads as the empty string (Go map zero value). -/
def authGet (auth0 : List (String × String)) (k : String) : String :=
  if k == "algorithm" then (authLookup auth0 "algorithm").getD "MD5"
  else (authLookup auth0 k).getD ""

/-- Map lookup `da.clients[nonce]` (digest.go:203). -/
def cacheLookup (c : Cache) (k : String) : Option digest_client :=
  (c.find? (fun p => p.1 == k)).map (fun p => p.2)

/-- The in-place mutation `client.nc = nc; client.last_seen = ...` through the
map-stored pointer (digest.go:209-210): replaces the value at key `k`. -/
def cacheUpdate (c : Cache) (k : String) (v : digest_client) : Cache :=
  c.map (fun p => if p.1 == k then (k, v) else p)

/-- Go map assignment `da.clients[nonce] = &digest_client{...}`
(digest.go:100): replaces the entry if the key is present, appends otherwise. -/
def cacheInsert (c : Cache) (k : String) (v : digest_client) : Cache :=
  if (c.find? (fun p => p.1 == k)).isSome then cacheUpdate c k v
  else c ++ [(k, v)]

/-- Map deletion `delete(da.clients, nonce)` (digest.go:80). -/
def cacheDelete (c : Cache) (k : String) : Cache :=
  c.filter (fun p => p.1 != k)

/-- Value of one hexadecimal digit, as accepted by Go's
`strconv.ParseUint(s, 16, 64)`. -/
def hexDigitVal (c : Char) : Option Nat :=
  if '0' ≤ c ∧ c ≤ '9' then some (c.toNat - Char.toNat '0')
  else if 'a' ≤ c ∧ c ≤ 'f' then some (c.toNat - Char.toNat 'a' + 10)
  else if 'A' ≤ c ∧ c ≤ 'F' then some (c.toNat - Char.toNat 'A' + 10)
  else none

/-- Accumulating core of the base-16 digit scan. -/
def parseHexCore : List Char → Nat → Option Nat
  | [], acc => some acc
  | c :: cs, acc =>
    match hexDigitVal c with
    | none => none
    | some d => parseHexCore cs (acc * 16 + d)

/-- Go `strconv.ParseUint(s, 16, 64)` (digest.go:198): rejects the empty
string and any non-hex-digit rune; with an explicit base there is no `0x`
prefix or underscore handling; a value not representable in 64 bits is a
range error, which `CheckAuth` also treats as rejection. -/
def parseUintHex64 (s : String) : Option Nat :=
  if s.isEmpty then none
  else
    match parseHexCore s.data 0 with
    | none => none
    | some n => if n < 2 ^ 64 then some n else none

/-- Go `strings.ToUpper` (used at digest.go:158) on its ASCII fragment,
written with structural recursion over the character list.  Algorithm names
are ASCII, where Go's Unicode-aware mapping and this one agree. -/
def strToUpper (s : String) : String := String.mk (s.data.map Char.toUpper)

/-- Character-list core of `strings.HasPrefix`: does the first list start
with the second? -/
def charsStartWith : List Char → List Char → Bool
  | _, [] => true
  | [], _ :: _ => false
  | a :: as, b :: bs => a == b && charsStartWith as bs

/-- Go `strings.HasPrefix(s, p)` (used at digest.go:179), written with
structural recursion so that concrete instances evaluate in the kernel. -/
def strStartsWith (s p : String) : Bool := charsStartWith s.data p.data

/-- The URI check of `CheckAuth` (digest.go:163-182): exact match of
`r.RequestURI` against `auth["uri"]`, else parse `auth["uri"]` as a URL and
require its path to be a byte-length-bounded prefix of `r.URL.Path`
(`len(u.Path) > len(r.URL.Path)` rejects, then `strings.HasPrefix`). -/
def uriOk (env : Env) (r : RequestS) (uri : String) : Bool :=
  if r.RequestURI == uri then true
  else
    match env.urlParsePath uri with
    | none => false
    | some uPath =>
      match r.URLPath with
      | none => false
      | some rPath =>
        if rPath.utf8ByteSize < uPath.utf8ByteSize then false
        else strStartsWith rPath uPath

/-- HA1 computation (digest.go:184-187): the secret-provider value, rehashed
as `H(username:realm:secret)` when `PlainTextSecrets` is set. -/
def realHA1 (cfg : DigestAuth) (H : String → String) (username : String) : String :=
  if cfg.PlainTextSecrets then
    H (username ++ ":" ++ cfg.Realm ++ ":" ++ cfg.Secrets username cfg.Realm)
  else cfg.Secrets username cfg.Realm

/-- Expected response `KD = H(HA1:nonce:nc:cnonce:qop:HA2)` with
`HA2 = H(method:uri)` (digest.go:188-189). -/
def expectedKD (cfg : DigestAuth) (H : String → String)
    (method uri username nonce ncStr cnonce qop : String) : String :=
  H (String.intercalate ":"
    [realHA1 cfg H username, nonce, ncStr, cnonce, qop, H (method ++ ":" ++ uri)])

/-- The replay rejection condition
`client.nc != 0 && client.nc >= nc && !da.IgnoreNonceCount` (digest.go:206). -/
def sessionCheckRejects (stored nc : Nat) (ignore : Bool) : Bool :=
  stored != 0 && decide (nc ≤ stored) && !ignore

/-- The `Authentication-Info` value
`fmt.Sprintf(%22qop=%22auth%22, rspauth=...%22)` (digest.go:216). -/
def authInfoString (rspauth cnonce ncStr : String) : String :=
  "qop=\"auth\", rspauth=\"" ++ rspauth ++ "\", cnonce=\"" ++ cnonce ++
    "\", nc=\"" ++ ncStr ++ "\""

/-- Model of `DigestAuth.CheckAuth` (digest.go:133-218).  The `authHeader` argument is
the result of `DigestAuthParams` on the Authorization header: `none` when the
header is not a parsable Digest header.  `subtle.ConstantTimeCompare(a,b) != 1`
is string inequality (the constant-time property is a timing concern with no
value-level content).  Returns the `(username, authinfo)` pair together with
the resulting client cache; a rejection is `("", none)`. -/
def CheckAuth (cfg : DigestAuth) (env : Env) (r : RequestS)
    (authHeader : Option (List (String × String))) (clients : Cache) (now : Int) :
    (String × Option String) × Cache :=
  match authHeader with
  | none => (("", none), clients)
  | some auth0 =>
    if cfg.OpaqueVal ≠ authGet auth0 "opaque" ∨ authGet auth0 "qop" ≠ "auth" then
      (("", none), clients)
    else
      match env.algorithms (strToUpper (authGet auth0 "algorithm")) with
      | none => (("", none), clients)
      | some H =>
        if uriOk env r (authGet auth0 "uri") = false then (("", none), clients)
        else if expectedKD cfg H r.Method (authGet auth0 "uri")
            (authGet auth0 "username") (authGet auth0 "nonce") (authGet auth0 "nc")
            (authGet auth0 "cnonce") (authGet auth0 "qop")
            ≠ authGet auth0 "response" then (("", none), clients)
        else
          match parseUintHex64 (authGet auth0 "nc") with
          | none => (("", none), clients)
          | some nc =>
            match cacheLookup clients (authGet auth0 "nonce") with
            | none => (("", none), clients)
            | some client =>
              if sessionCheckRejects client.nc nc cfg.IgnoreNonceCount then
                (("", none), clients)
              else
                ((authGet auth0 "username",
                  some (authInfoString
                    (H (String.intercalate ":"
                      [realHA1 cfg H (authGet auth0 "username"),
                       authGet auth0 "nonce", authGet auth0 "nc",
                       authGet auth0 "cnonce", authGet auth0 "qop",
                       H (":" ++ authGet auth0 "uri")]))
                    (authGet auth0 "cnonce") (authGet auth0 "nc"))),
                 cacheUpdate clients (authGet auth0 "nonce") ⟨nc, now⟩)

/-- Insertion step of the sort performed by `sort.Sort(cache)` with
`Less i j = c[i].last_seen < c[j].last_seen` (digest.go:56-58, 78). -/
def insertByLastSeen (x : String × Int) : List (String × Int) → List (String × Int)
  | [] => [x]
  | y :: ys => if x.2 < y.2 then x :: y :: ys else y :: insertByLastSeen x ys

/-- Ascending sort of the purge candidate list by `last_seen`
(digest.go:77-78).  Go's `sort.Sort` is unstable; ties are broken arbitrarily
there and deterministically here, which no claim depends on. -/
def digestCacheSort (l : List (String × Int)) : List (String × Int) :=
  l.foldr insertByLastSeen []

/-- Model of `DigestAuth.Purge` (digest.go:71-83): collect `(nonce, last_seen)` pairs,
sort ascending by `last_seen`, delete the keys of the first `count` entries.
The Go slice expression `cache[:count]` panics when `count` exceeds the
length (the backing array capacity is exactly `len(da.clients)`); the panic is
modelled as `none`. -/
def Purge (clients : Cache) (count : Nat) : Option Cache :=
  let cache := digestCacheSort (clients.map (fun p => (p.1, p.2.last_seen)))
  if count ≤ cache.length then
    some ((cache.take count).foldl (fun acc e => cacheDelete acc e.1) clients)
  else none

/-- Cache effect of `DigestAuth.RequireAuth` (digest.go:89-101): purge
`ClientCacheTolerance * 2` oldest entries when the cache size exceeds
`ClientCacheSize + ClientCacheTolerance`, then register the fresh nonce with
counter 0.  Header writing (digest.go:103-110) has no cache effect.  A `none`
result is the propagated `Purge` panic. -/
def RequireAuthCacheStep (cfg : DigestAuth) (clients : Cache) (nonce : String)
    (now : Int) : Option Cache :=
  let purged :=
    if clients.length > cfg.ClientCacheSize + cfg.ClientCacheTolerance then
      Purge clients (cfg.ClientCacheTolerance * 2)
    else some clients
  purged.map (fun c => cacheInsert c nonce ⟨0, now⟩)

/-- A correctly-formed Authorization parameter map: `qop` is `"auth"`, the
`opaque` echoes the configured token, and `response` is computed by the
genuine `KD` formula over the supplied fields (spec §4.5 steps 5-7). -/
def validAuthParams (cfg : DigestAuth) (H : String → String)
    (method uri username nonce ncStr cnonce alg : String) :
    List (String × String) :=
  [("username", username), ("realm", cfg.Realm), ("nonce", nonce),
   ("uri", uri), ("qop", "auth"), ("nc", ncStr), ("cnonce", cnonce),
   ("opaque", cfg.OpaqueVal), ("algorithm", alg),
   ("response", expectedKD cfg H method uri username nonce ncStr cnonce "auth")]

/-- Nonce tokens for scenario construction.  Modelled from the spec:
`RandomKey` (called at digest.go:97, defined outside the given sources)
produces cryptographically random, collision-free tokens (§4.4); the model
only needs an injective supply of fresh strings. -/
def nonceName (i : Nat) : String := String.mk (List.replicate i 'a')

/-- Cache contents after `k` challenge issuances with no subsequent use:
the i-th issuance registered `nonceName i` with counter 0 at time `i`. -/
def baseCache (k : Nat) : Cache :=
  (List.range k).map (fun i => (nonceName i, ⟨0, Int.ofNat i⟩))

/-- Cache after `k` successive `RequireAuth` issuances from an empty cache, the i-th at
time `i` registering `nonceName i`. -/
def issueChallenges (cfg : DigestAuth) : Nat → Option Cache
  | 0 => some []
  | k + 1 => (issueChallenges cfg k).bind
      (fun c => RequireAuthCacheStep cfg c (nonceName k) (Int.ofNat k))

/-- The cache after `n` submissions of one fixed Authorization map, all at
time `now`. -/
def repeatSubmit (cfg : DigestAuth) (env : Env) (r : RequestS)
    (auth0 : List (String × String)) (now : Int) : Nat → Cache → Cache
  | 0, c => c
  | n + 1, c => (CheckAuth cfg env r (some auth0) (repeatSubmit cfg env r auth0 now n c) now).2

/-!
Interleaving model of the session check (digest.go:203-211) under the lock
actually taken by `CheckAuth`, which is `da.mutex.RLock()` (digest.go:134): a
shared lock, so two requests can be inside the section simultaneously, each
reading the stored counter before either writes it.
-/

/-- Phase of one request executing the session check fragment:
not yet started; holding the shared lock with the counter value it read; or
finished with its accept/reject outcome. -/
inductive RPhase
  | start
  | observed (v : Nat)
  | done (accepted : Bool)
deriving DecidableEq, Repr

/-- Two concurrent `CheckAuth` calls for the same nonce and the same `nc`,
plus the shared stored counter of that nonce's session. -/
structure RaceState where
  stored : Nat
  t1 : RPhase
  t2 : RPhase
deriving DecidableEq, Repr

/-- One request's next step at the given `nc`: from `start`, enter the
(shared) critical section and read `client.nc`; from `observed v`, run the
check of digest.go:206 on the value read and, on acceptance, write
`client.nc = nc` (digest.go:209).  Returns the new phase and new stored
counter. -/
def threadStep (nc stored : Nat) : RPhase → RPhase × Nat
  | .start => (.observed stored, stored)
  | .observed v =>
    if sessionCheckRejects v nc false then (.done false, stored)
    else (.done true, nc)
  | .done b => (.done b, stored)

/-- Interleaving step: `pick` selects which of the two requests advances.
Both may be between their read and their write simultaneously because
`RLock` admits concurrent holders. -/
def rstep (nc : Nat) (pick : Bool) (s : RaceState) : RaceState :=
  if pick then
    let p := threadStep nc s.stored s.t1
    ⟨p.2, p.1, s.t2⟩
  else
    let p := threadStep nc s.stored s.t2
    ⟨p.2, s.t1, p.1⟩

/-- Run a schedule (list of thread picks) from a state. -/
def runSched (nc : Nat) : List Bool → RaceState → RaceState
  | [], s => s
  | b :: bs, s => runSched nc bs (rstep nc b s)

/-- Modelled from the spec: the session check with the lookup and the update
inside a single exclusive-lock critical section (§5), so the read-check-write
fragment runs atomically. -/
def atomicSection (nc stored : Nat) : Bool × Nat :=
  if sessionCheckRejects stored nc false then (false, stored) else (true, nc)

/-- Modelled from the spec: under the exclusive lock the two requests'
critical sections serialize in one of the two orders; returns the pair of
acceptance outcomes (first thread's, second thread's). -/
def exclusiveRun (nc stored : Nat) : Bool × Bool :=
  let r1 := atomicSection nc stored
  let r2 := atomicSection nc r1.2
  (r1.1, r2.1)

/-!  Concrete instances used by counterexamples and witnesses. -/

/-- A concrete injective digest function standing in for a registered hash. -/
def testH (s : String) : String := "h(" ++ s ++ ")"

/-- Concrete environment: only `"MD5"` is registered (registry keys are
upper-case, matching the `strings.ToUpper` lookup at digest.go:158), and the
URL parser is the plain-path fragment of `net/url.Parse` — on a string that
is a bare absolute path, `url.Parse` succeeds and its `Path` is the string
itself.  Modelled from the spec (§4.5 step 4). -/
def testEnv : Env :=
  { algorithms := fun a => if a == "MD5" then some testH else none
    urlParsePath := fun s => some s }

/-- Concrete configuration for witnesses. -/
def testCfg : DigestAuth :=
  { Algorithm := "MD5", Realm := "example.com", OpaqueVal := "U7H9V2ra"
    Secrets := fun u realm => testH (u ++ ":" ++ realm ++ ":secret")
    PlainTextSecrets := false, IgnoreNonceCount := false
    ClientCacheSize := 1000, ClientCacheTolerance := 100 }

/-- Concrete request for witnesses. -/
def testReq : RequestS :=
  { Method := "GET", RequestURI := "/some/path", URLPath := some "/some/path" }

/-!  Helper lemmas. -/

section GetLemmas

variable (cfg : DigestAuth) (H : String → String)
variable (method uri username nonce ncStr cnonce alg : String)

theorem validAuth_get_username :
    authGet (validAuthParams cfg H method uri username nonce ncStr cnonce alg)
      "username" = username := rfl

theorem validAuth_get_nonce :
    authGet (validAuthParams cfg H method uri username nonce ncStr cnonce alg)
      "nonce" = nonce := rfl

theorem validAuth_get_uri :
    authGet (validAuthParams cfg H method uri username nonce ncStr cnonce alg)
      "uri" = uri := rfl

theorem validAuth_get_qop :
    authGet (validAuthParams cfg H method uri username nonce ncStr cnonce alg)
      "qop" = "auth" := rfl

theorem validAuth_get_nc :
    authGet (validAuthParams cfg H method uri username nonce ncStr cnonce alg)
      "nc" = ncStr := rfl

theorem validAuth_get_cnonce :
    authGet (validAuthParams cfg H method uri username nonce ncStr cnonce alg)
      "cnonce" = cnonce := rfl

theorem validAuth_get_opaque :
    authGet (validAuthParams cfg H method uri username nonce ncStr cnonce alg)
      "opaque" = cfg.OpaqueVal := rfl

theorem validAuth_get_algorithm :
    authGet (validAuthParams cfg H method uri username nonce ncStr cnonce alg)
      "algorithm" = alg := rfl

theorem validAuth_get_response :
    authGet (validAuthParams cfg H method uri username nonce ncStr cnonce alg)
      "response"
      = expectedKD cfg H method uri username nonce ncStr cnonce "auth" := rfl

end GetLemmas

theorem cacheLookup_update_self (c : Cache) (k : String) (v : digest_client)
    (h : (cacheLookup c k).isSome) :
    cacheLookup (cacheUpdate c k v) k = some v := by
  induction c with
  | nil => simp [cacheLookup] at h
  | cons p t ih =>
    by_cases hk : p.1 == k
    · simp [cacheLookup, cacheUpdate, List.find?, hk]
    · simp only [cacheLookup, cacheUpdate, List.map_cons, List.find?] at h ⊢
      rw [if_neg (by simpa using hk)]
      simp only [hk, Bool.false_eq_true, reduceIte] at h ⊢
      exact ih h

/-- Full evaluation of `CheckAuth` on a correctly-formed parameter map with a
registered algorithm, passing URI check, parsable `nc` and registered nonce:
the outcome is decided by the replay condition of digest.go:206, and on
acceptance the session entry is replaced by `⟨nc, now⟩`. -/
theorem checkAuth_valid_eval (cfg : DigestAuth) (env : Env) (r : RequestS)
    (H : String → String) (username nonce uri ncStr cnonce alg : String)
    (clients : Cache) (now : Int) (client : digest_client) (nc : Nat)
    (halg : env.algorithms (strToUpper alg) = some H)
    (huri : uriOk env r uri = true)
    (hnc : parseUintHex64 ncStr = some nc)
    (hlook : cacheLookup clients nonce = some client) :
    CheckAuth cfg env r
      (some (validAuthParams cfg H r.Method uri username nonce ncStr cnonce alg))
      clients now =
    if sessionCheckRejects client.nc nc cfg.IgnoreNonceCount then
      (("", none), clients)
    else
      ((username,
        some (authInfoString
          (H (String.intercalate ":"
            [realHA1 cfg H username, nonce, ncStr, cnonce, "auth",
             H (":" ++ uri)]))
          cnonce ncStr)),
       cacheUpdate clients nonce ⟨nc, now⟩) := by
  simp only [CheckAuth, validAuth_get_username, validAuth_get_nonce,
    validAuth_get_uri, validAuth_get_qop, validAuth_get_nc,
    validAuth_get_cnonce, validAuth_get_opaque, validAuth_get_algorithm,
    validAuth_get_response, halg, huri, hnc, hlook, ne_eq, not_true_eq_false,
    or_self, if_false, Bool.true_eq_false]

/-- Abbreviation for the accepted outcome of `CheckAuth`: the username, the
`Authentication-Info` value computed at digest.go:213-216, and the session
entry replaced by `⟨nc, now⟩`. -/
def acceptedResult (cfg : DigestAuth) (H : String → String)
    (uri username nonce ncStr cnonce : String) (nc : Nat) (clients : Cache)
    (now : Int) : (String × Option String) × Cache :=
  ((username,
    some (authInfoString
      (H (String.intercalate ":"
        [realHA1 cfg H username, nonce, ncStr, cnonce, "auth", H (":" ++ uri)]))
      cnonce ncStr)),
   cacheUpdate clients nonce ⟨nc, now⟩)

/-- C7: round-trip completeness — a request whose Authorization parameters are
correctly formed (response computed as `KD = H(HA1:nonce:nc:cnonce:qop:HA2)`
with `HA2 = H(method:uri)` over the real HA1, rehashed in plaintext-secret
mode; a registered nonce; qop `"auth"`; the configured opaque; a registered
algorithm; a URI passing the match; a counter strictly above the stored one)
is Accepted with that username. -/
theorem check_auth_round_trip (cfg : DigestAuth) (env : Env) (r : RequestS)
    (H : String → String) (username nonce uri ncStr cnonce alg : String)
    (clients : Cache) (now : Int) (client : digest_client) (nc : Nat)
    (halg : env.algorithms (strToUpper alg) = some H)
    (huri : uriOk env r uri = true)
    (hnc : parseUintHex64 ncStr = some nc)
    (hlook : cacheLookup clients nonce = some client)
    (hcount : client.nc < nc) :
    CheckAuth cfg env r
      (some (validAuthParams cfg H r.Method uri username nonce ncStr cnonce alg))
      clients now
      = acceptedResult cfg H uri username nonce ncStr cnonce nc clients now := by
  rw [checkAuth_valid_eval cfg env r H username nonce uri ncStr cnonce alg
    clients now client nc halg huri hnc hlook]
  have hle : ¬ (nc ≤ client.nc) := Nat.not_le.mpr hcount
  simp [sessionCheckRejects, hle, acceptedResult]

/-- C7 witness: concrete round-trip acceptance. -/
theorem check_auth_round_trip_witness :
    (2 : Nat) < 5 ∧
    CheckAuth testCfg testEnv testReq
      (some (validAuthParams testCfg testH "GET" "/some/path" "bob" "NONCE1" "5"
        "cn0" "MD5"))
      [("NONCE1", ⟨2, 3⟩)] 9
      = acceptedResult testCfg testH "/some/path" "bob" "NONCE1" "5" "cn0" 5
        [("NONCE1", ⟨2, 3⟩)] 9 :=
  ⟨by decide,
   check_auth_round_trip testCfg testEnv testReq testH "bob" "NONCE1"
     "/some/path" "5" "cn0" "MD5" [("NONCE1", ⟨2, 3⟩)] 9 ⟨2, 3⟩ 5
     (by rfl) (by decide) (by decide) (by decide) (by decide)⟩

/-- C9: opaque/qop gating — a mismatched `opaque` parameter or a `qop` other
than the literal `"auth"` is Rejected regardless of every other parameter,
and the cache is untouched. -/
theorem check_auth_opaque_qop_gate (cfg : DigestAuth) (env : Env) (r : RequestS)
    (auth0 : List (String × String)) (clients : Cache) (now : Int)
    (h : cfg.OpaqueVal ≠ authGet auth0 "opaque" ∨ authGet auth0 "qop" ≠ "auth") :
    CheckAuth cfg env r (some auth0) clients now = (("", none), clients) := by
  simp only [CheckAuth, if_pos h]

/-- C9 witness: an otherwise correctly-formed response with `qop` set to
`"auth-int"` is rejected. -/
theorem check_auth_opaque_qop_gate_witness :
    CheckAuth testCfg testEnv testReq
      (some (("qop", "auth-int") ::
        validAuthParams testCfg testH "GET" "/some/path" "bob" "NONCE1" "1"
          "cn0" "MD5"))
      [("NONCE1", ⟨0, 0⟩)] 5
      = (("", none), [("NONCE1", ⟨0, 0⟩)]) :=
  check_auth_opaque_qop_gate testCfg testEnv testReq _ _ 5 (Or.inr (by decide))

/-- A correctly-formed submission whose replay condition does not fire is
accepted and replaces the session entry. -/
theorem checkAuth_accept_of (cfg : DigestAuth) (env : Env) (r : RequestS)
    (H : String → String) (username nonce uri ncStr cnonce alg : String)
    (clients : Cache) (now : Int) (client : digest_client) (nc : Nat)
    (halg : env.algorithms (strToUpper alg) = some H)
    (huri : uriOk env r uri = true)
    (hnc : parseUintHex64 ncStr = some nc)
    (hlook : cacheLookup clients nonce = some client)
    (hok : sessionCheckRejects client.nc nc cfg.IgnoreNonceCount = false) :
    CheckAuth cfg env r
      (some (validAuthParams cfg H r.Method uri username nonce ncStr cnonce alg))
      clients now
      = acceptedResult cfg H uri username nonce ncStr cnonce nc clients now := by
  rw [checkAuth_valid_eval cfg env r H username nonce uri ncStr cnonce alg
    clients now client nc halg huri hnc hlook]
  simp [hok, acceptedResult]

/-- A correctly-formed submission whose replay condition fires is rejected
with the cache unchanged. -/
theorem checkAuth_reject_of (cfg : DigestAuth) (env : Env) (r : RequestS)
    (H : String → String) (username nonce uri ncStr cnonce alg : String)
    (clients : Cache) (now : Int) (client : digest_client) (nc : Nat)
    (halg : env.algorithms (strToUpper alg) = some H)
    (huri : uriOk env r uri = true)
    (hnc : parseUintHex64 ncStr = some nc)
    (hlook : cacheLookup clients nonce = some client)
    (hbad : sessionCheckRejects client.nc nc cfg.IgnoreNonceCount = true) :
    CheckAuth cfg env r
      (some (validAuthParams cfg H r.Method uri username nonce ncStr cnonce alg))
      clients now
      = (("", none), clients) := by
  rw [checkAuth_valid_eval cfg env r H username nonce uri ncStr cnonce alg
    clients now client nc halg huri hnc hlook]
  simp [hbad]

/-- C1: counter monotonicity — for one registered nonce with replay
protection on, cryptographically valid submissions with `nc` values 1, 2, 3
in order are each accepted, and each acceptance stores the new counter;
resubmitting 2 after 3 is Rejected with the cache unchanged; under
`IgnoreNonceCount` the same resubmission is Accepted and the stored counter
becomes 2. -/
theorem check_auth_counter_monotonic (cfg : DigestAuth) (env : Env)
    (r : RequestS) (H : String → String) (username nonce uri cnonce alg : String)
    (clients : Cache) (t0 t1 t2 t3 t4 : Int)
    (halg : env.algorithms (strToUpper alg) = some H)
    (huri : uriOk env r uri = true)
    (hon : cfg.IgnoreNonceCount = false)
    (hlook : cacheLookup clients nonce = some ⟨0, t0⟩) :
    CheckAuth cfg env r
        (some (validAuthParams cfg H r.Method uri username nonce "1" cnonce alg))
        clients t1
      = acceptedResult cfg H uri username nonce "1" cnonce 1 clients t1 ∧
    cacheLookup (cacheUpdate clients nonce ⟨1, t1⟩) nonce = some ⟨1, t1⟩ ∧
    CheckAuth cfg env r
        (some (validAuthParams cfg H r.Method uri username nonce "2" cnonce alg))
        (cacheUpdate clients nonce ⟨1, t1⟩) t2
      = acceptedResult cfg H uri username nonce "2" cnonce 2
          (cacheUpdate clients nonce ⟨1, t1⟩) t2 ∧
    cacheLookup (cacheUpdate (cacheUpdate clients nonce ⟨1, t1⟩) nonce ⟨2, t2⟩)
        nonce = some ⟨2, t2⟩ ∧
    CheckAuth cfg env r
        (some (validAuthParams cfg H r.Method uri username nonce "3" cnonce alg))
        (cacheUpdate (cacheUpdate clients nonce ⟨1, t1⟩) nonce ⟨2, t2⟩) t3
      = acceptedResult cfg H uri username nonce "3" cnonce 3
          (cacheUpdate (cacheUpdate clients nonce ⟨1, t1⟩) nonce ⟨2, t2⟩) t3 ∧
    cacheLookup (cacheUpdate (cacheUpdate (cacheUpdate clients nonce ⟨1, t1⟩)
        nonce ⟨2, t2⟩) nonce ⟨3, t3⟩) nonce = some ⟨3, t3⟩ ∧
    CheckAuth cfg env r
        (some (validAuthParams cfg H r.Method uri username nonce "2" cnonce alg))
        (cacheUpdate (cacheUpdate (cacheUpdate clients nonce ⟨1, t1⟩)
          nonce ⟨2, t2⟩) nonce ⟨3, t3⟩) t4
      = (("", none),
         cacheUpdate (cacheUpdate (cacheUpdate clients nonce ⟨1, t1⟩)
           nonce ⟨2, t2⟩) nonce ⟨3, t3⟩) ∧
    CheckAuth { cfg with IgnoreNonceCount := true } env r
        (some (validAuthParams { cfg with IgnoreNonceCount := true } H r.Method
          uri username nonce "2" cnonce alg))
        (cacheUpdate (cacheUpdate (cacheUpdate clients nonce ⟨1, t1⟩)
          nonce ⟨2, t2⟩) nonce ⟨3, t3⟩) t4
      = acceptedResult { cfg with IgnoreNonceCount := true } H uri username nonce
          "2" cnonce 2
          (cacheUpdate (cacheUpdate (cacheUpdate clients nonce ⟨1, t1⟩)
            nonce ⟨2, t2⟩) nonce ⟨3, t3⟩) t4 ∧
    cacheLookup (cacheUpdate (cacheUpdate (cacheUpdate (cacheUpdate clients
        nonce ⟨1, t1⟩) nonce ⟨2, t2⟩) nonce ⟨3, t3⟩) nonce ⟨2, t4⟩) nonce
      = some ⟨2, t4⟩ := by
  have hl1 : cacheLookup (cacheUpdate clients nonce ⟨1, t1⟩) nonce
      = some ⟨1, t1⟩ :=
    cacheLookup_update_self clients nonce ⟨1, t1⟩ (by rw [hlook]; rfl)
  have hl2 : cacheLookup (cacheUpdate (cacheUpdate clients nonce ⟨1, t1⟩)
      nonce ⟨2, t2⟩) nonce = some ⟨2, t2⟩ :=
    cacheLookup_update_self _ nonce ⟨2, t2⟩ (by rw [hl1]; rfl)
  have hl3 : cacheLookup (cacheUpdate (cacheUpdate (cacheUpdate clients nonce
      ⟨1, t1⟩) nonce ⟨2, t2⟩) nonce ⟨3, t3⟩) nonce = some ⟨3, t3⟩ :=
    cacheLookup_update_self _ nonce ⟨3, t3⟩ (by rw [hl2]; rfl)
  have hl4 : cacheLookup (cacheUpdate (cacheUpdate (cacheUpdate (cacheUpdate
      clients nonce ⟨1, t1⟩) nonce ⟨2, t2⟩) nonce ⟨3, t3⟩) nonce ⟨2, t4⟩) nonce
      = some ⟨2, t4⟩ :=
    cacheLookup_update_self _ nonce ⟨2, t4⟩ (by rw [hl3]; rfl)
  refine ⟨?_, hl1, ?_, hl2, ?_, hl3, ?_, ?_, hl4⟩
  · exact checkAuth_accept_of cfg env r H username nonce uri "1" cnonce alg
      clients t1 ⟨0, t0⟩ 1 halg huri (by decide) hlook
      (by simp [sessionCheckRejects])
  · exact checkAuth_accept_of cfg env r H username nonce uri "2" cnonce alg
      _ t2 ⟨1, t1⟩ 2 halg huri (by decide) hl1
      (by simp [sessionCheckRejects])
  · exact checkAuth_accept_of cfg env r H username nonce uri "3" cnonce alg
      _ t3 ⟨2, t2⟩ 3 halg huri (by decide) hl2
      (by simp [sessionCheckRejects])
  · exact checkAuth_reject_of cfg env r H username nonce uri "2" cnonce alg
      _ t4 ⟨3, t3⟩ 2 halg huri (by decide) hl3
      (by simp [sessionCheckRejects, hon])
  · exact checkAuth_accept_of { cfg with IgnoreNonceCount := true } env r H
      username nonce uri "2" cnonce alg _ t4 ⟨3, t3⟩ 2 halg huri (by decide) hl3
      (by simp [sessionCheckRejects])

/-- C1 witness: the rejected resubmission step at concrete inputs. -/
theorem check_auth_counter_monotonic_witness :
    CheckAuth testCfg testEnv testReq
        (some (validAuthParams testCfg testH testReq.Method "/some/path" "bob"
          "N" "2" "cn" "MD5"))
        (cacheUpdate (cacheUpdate (cacheUpdate [("N", ⟨0, 0⟩)] "N" ⟨1, 1⟩)
          "N" ⟨2, 2⟩) "N" ⟨3, 3⟩) 4
      = (("", none),
         cacheUpdate (cacheUpdate (cacheUpdate [("N", ⟨0, 0⟩)] "N" ⟨1, 1⟩)
           "N" ⟨2, 2⟩) "N" ⟨3, 3⟩) :=
  (check_auth_counter_monotonic testCfg testEnv testReq testH "bob" "N"
    "/some/path" "cn" "MD5" [("N", ⟨0, 0⟩)] 0 1 2 3 4 (by rfl) (by decide)
    rfl rfl).2.2.2.2.2.2.1

/-- C2: a session whose stored counter is 0 accepts `nc = "0"` and stores
counter 0 again, so the identical response is accepted arbitrarily often even
with replay protection enabled — the replay check is skipped whenever the
stored counter is 0. -/
theorem check_auth_zero_counter_replay (cfg : DigestAuth) (env : Env)
    (r : RequestS) (H : String → String) (username nonce uri cnonce alg : String)
    (clients : Cache) (t0 now : Int)
    (halg : env.algorithms (strToUpper alg) = some H)
    (huri : uriOk env r uri = true)
    (hon : cfg.IgnoreNonceCount = false)
    (hlook : cacheLookup clients nonce = some ⟨0, t0⟩) :
    (∀ n, (CheckAuth cfg env r
        (some (validAuthParams cfg H r.Method uri username nonce "0" cnonce alg))
        (repeatSubmit cfg env r
          (validAuthParams cfg H r.Method uri username nonce "0" cnonce alg)
          now n clients) now).1.1 = username) ∧
    (∀ n, cacheLookup (repeatSubmit cfg env r
        (validAuthParams cfg H r.Method uri username nonce "0" cnonce alg)
        now (n + 1) clients) nonce = some ⟨0, now⟩) := by
  set va := validAuthParams cfg H r.Method uri username nonce "0" cnonce alg
    with hva
  have key : ∀ n, cacheLookup (repeatSubmit cfg env r va now n clients) nonce
      = some ⟨0, Nat.casesOn n t0 (fun _ => now)⟩ := by
    intro n
    induction n with
    | zero => exact hlook
    | succ n ih =>
      have hstep : repeatSubmit cfg env r va now (n + 1) clients
          = (CheckAuth cfg env r (some va)
              (repeatSubmit cfg env r va now n clients) now).2 := rfl
      have hacc := checkAuth_accept_of cfg env r H username nonce uri "0"
        cnonce alg (repeatSubmit cfg env r va now n clients) now
        ⟨0, Nat.casesOn n t0 (fun _ => now)⟩ 0 halg huri (by decide) ih
        (by simp [sessionCheckRejects])
      rw [← hva] at hacc
      rw [hstep, hacc]
      exact cacheLookup_update_self _ nonce ⟨0, now⟩ (by rw [ih]; rfl)
  constructor
  · intro n
    have hacc := checkAuth_accept_of cfg env r H username nonce uri "0"
      cnonce alg (repeatSubmit cfg env r va now n clients) now
      ⟨0, Nat.casesOn n t0 (fun _ => now)⟩ 0 halg huri (by decide) (key n)
      (by simp [sessionCheckRejects])
    rw [← hva] at hacc
    rw [hacc]
    rfl
  · intro n
    exact key (n + 1)

/-- C2 witness: three identical `nc = "0"` submissions at concrete inputs. -/
theorem check_auth_zero_counter_replay_witness :
    (CheckAuth testCfg testEnv testReq
        (some (validAuthParams testCfg testH testReq.Method "/some/path" "bob"
          "N" "0" "cn" "MD5"))
        (repeatSubmit testCfg testEnv testReq
          (validAuthParams testCfg testH testReq.Method "/some/path" "bob" "N"
            "0" "cn" "MD5") 9 2 [("N", ⟨0, 0⟩)]) 9).1.1 = "bob" ∧
    cacheLookup (repeatSubmit testCfg testEnv testReq
        (validAuthParams testCfg testH testReq.Method "/some/path" "bob" "N"
          "0" "cn" "MD5") 9 3 [("N", ⟨0, 0⟩)]) "N" = some ⟨0, 9⟩ :=
  ⟨(check_auth_zero_counter_replay testCfg testEnv testReq testH "bob" "N"
      "/some/path" "cn" "MD5" [("N", ⟨0, 0⟩)] 0 9 (by rfl) (by decide) rfl
      rfl).1 2,
   (check_auth_zero_counter_replay testCfg testEnv testReq testH "bob" "N"
      "/some/path" "cn" "MD5" [("N", ⟨0, 0⟩)] 0 9 (by rfl) (by decide) rfl
      rfl).2 2⟩

/-- C4 (amended): whenever `CheckAuth` rejects — returns no session
(`authinfo = nil`) — the nonce cache is completely unchanged, and a failed
cryptographic comparison rejects with the cache unchanged for every cache
state (the comparison of digest.go:191 runs before the cache lookup of
digest.go:203).  The amendment: the code signals rejection to its callers by
an empty username, yet an empty username that validly authenticates is
accepted and mutates the cache, so "Rejected" must be read as
"no authinfo returned" rather than "empty username returned". -/
theorem check_auth_reject_preserves_cache (cfg : DigestAuth) (env : Env)
    (r : RequestS) (authHeader : Option (List (String × String)))
    (clients : Cache) (now : Int) :
    ((CheckAuth cfg env r authHeader clients now).1.2 = none →
      (CheckAuth cfg env r authHeader clients now).2 = clients) ∧
    (∀ auth0 H, authHeader = some auth0 →
      env.algorithms (strToUpper (authGet auth0 "algorithm")) = some H →
      expectedKD cfg H r.Method (authGet auth0 "uri") (authGet auth0 "username")
          (authGet auth0 "nonce") (authGet auth0 "nc") (authGet auth0 "cnonce")
          (authGet auth0 "qop") ≠ authGet auth0 "response" →
      CheckAuth cfg env r (some auth0) clients now = (("", none), clients)) := by
  constructor
  · cases authHeader with
    | none => intro _; rfl
    | some a0 =>
      simp only [CheckAuth]
      split
      · intro _; rfl
      · split
        · intro _; rfl
        · split
          · intro _; rfl
          · split
            · intro _; rfl
            · split
              · intro _; rfl
              · split
                · intro _; rfl
                · split
                  · intro _; rfl
                  · intro h; simp at h
  · intro auth0 H heq halg hkd
    subst heq
    simp only [CheckAuth, halg]
    split
    · rfl
    · split
      · rfl
      · rfl

/-- C4 witness: a concrete crypto-mismatched request is rejected with the
cache untouched. -/
theorem check_auth_reject_preserves_cache_witness :
    CheckAuth testCfg testEnv testReq
      (some [("username", "bob"), ("nonce", "N"), ("uri", "/some/path"),
        ("qop", "auth"), ("nc", "1"), ("cnonce", "cn"),
        ("opaque", "U7H9V2ra"), ("algorithm", "MD5"), ("response", "wrong")])
      [("N", ⟨0, 0⟩)] 7
      = (("", none), [("N", ⟨0, 0⟩)]) :=
  (check_auth_reject_preserves_cache testCfg testEnv testReq
    (some [("username", "bob"), ("nonce", "N"), ("uri", "/some/path"),
      ("qop", "auth"), ("nc", "1"), ("cnonce", "cn"),
      ("opaque", "U7H9V2ra"), ("algorithm", "MD5"), ("response", "wrong")])
    [("N", ⟨0, 0⟩)] 7).2 _ testH rfl (by rfl) (by decide)

/-- Configuration whose secret provider returns the empty sentinel for every
user, the spec's signal for "unknown user" (§6). -/
def emptyUserCfg : DigestAuth := { testCfg with Secrets := fun _ _ => "" }

/-- C4 counterexample: a response validly computed for the empty username
(whose HA1 is the empty-string sentinel, known to any client) makes
`CheckAuth` return the empty username — the code's "Rejected" — while
mutating the nonce cache: the session counter advances from 0 to 1 and the
timestamp is refreshed. -/
theorem check_auth_empty_username_mutates :
    (CheckAuth emptyUserCfg testEnv testReq
      (some (validAuthParams emptyUserCfg testH "GET" "/some/path" "" "N" "1"
        "cn" "MD5"))
      [("N", ⟨0, 0⟩)] 7).1.1 = "" ∧
    (CheckAuth emptyUserCfg testEnv testReq
      (some (validAuthParams emptyUserCfg testH "GET" "/some/path" "" "N" "1"
        "cn" "MD5"))
      [("N", ⟨0, 0⟩)] 7).2 = [("N", ⟨1, 7⟩)] ∧
    [("N", (⟨1, 7⟩ : digest_client))] ≠ [("N", (⟨0, 0⟩ : digest_client))] := by
  decide

/-- C10: on acceptance the returned `Authentication-Info` value is exactly
`qop="auth", rspauth="H(HA1:nonce:nc:cnonce:qop:H(":"+uri))", cnonce="<cnonce>",
nc="<nc>"` built from the client-supplied `cnonce` and `nc` strings, where the
second HA2 `H(":"+uri)` omits the method (digest.go:213-216), and the `qop`
that was accepted is the literal `"auth"`. -/
theorem check_auth_authinfo_format (cfg : DigestAuth) (env : Env) (r : RequestS)
    (auth0 : List (String × String)) (clients : Cache) (now : Int) (info : String)
    (hinfo : (CheckAuth cfg env r (some auth0) clients now).1.2 = some info) :
    authGet auth0 "qop" = "auth" ∧
    ∃ H, env.algorithms (strToUpper (authGet auth0 "algorithm")) = some H ∧
      info = "qop=\"auth\", rspauth=\"" ++ H (String.intercalate ":"
          [realHA1 cfg H (authGet auth0 "username"), authGet auth0 "nonce",
           authGet auth0 "nc", authGet auth0 "cnonce", authGet auth0 "qop",
           H (":" ++ authGet auth0 "uri")]) ++ "\", cnonce=\""
        ++ authGet auth0 "cnonce" ++ "\", nc=\"" ++ authGet auth0 "nc"
        ++ "\"" := by
  simp only [CheckAuth] at hinfo
  split at hinfo
  · simp at hinfo
  · rename_i hgate
    split at hinfo
    · simp at hinfo
    · rename_i H0 halg0
      split at hinfo
      · simp at hinfo
      · split at hinfo
        · simp at hinfo
        · split at hinfo
          · simp at hinfo
          · split at hinfo
            · simp at hinfo
            · split at hinfo
              · simp at hinfo
              · simp only [Option.some.injEq] at hinfo
                push_neg at hgate
                refine ⟨hgate.2, H0, halg0, ?_⟩
                rw [← hinfo]
                simp [authInfoString, String.append_assoc]

/-- C10 witness: the confirmation value of a concrete accepted request. -/
theorem check_auth_authinfo_format_witness :
    authGet (validAuthParams testCfg testH "GET" "/some/path" "bob" "N" "1"
      "cn" "MD5") "qop" = "auth" ∧
    ∃ H, testEnv.algorithms (strToUpper (authGet (validAuthParams testCfg testH
        "GET" "/some/path" "bob" "N" "1" "cn" "MD5") "algorithm")) = some H ∧
      "qop=\"auth\", rspauth=\"h(h(bob:example.com:secret):N:1:cn:auth:h(:/some/path))\", cnonce=\"cn\", nc=\"1\""
        = "qop=\"auth\", rspauth=\"" ++ H (String.intercalate ":"
            [realHA1 testCfg H (authGet (validAuthParams testCfg testH "GET"
              "/some/path" "bob" "N" "1" "cn" "MD5") "username"),
             authGet (validAuthParams testCfg testH "GET" "/some/path" "bob"
               "N" "1" "cn" "MD5") "nonce",
             authGet (validAuthParams testCfg testH "GET" "/some/path" "bob"
               "N" "1" "cn" "MD5") "nc",
             authGet (validAuthParams testCfg testH "GET" "/some/path" "bob"
               "N" "1" "cn" "MD5") "cnonce",
             authGet (validAuthParams testCfg testH "GET" "/some/path" "bob"
               "N" "1" "cn" "MD5") "qop",
             H (":" ++ authGet (validAuthParams testCfg testH "GET"
               "/some/path" "bob" "N" "1" "cn" "MD5") "uri")]) ++ "\", cnonce=\""
          ++ authGet (validAuthParams testCfg testH "GET" "/some/path" "bob"
            "N" "1" "cn" "MD5") "cnonce" ++ "\", nc=\""
          ++ authGet (validAuthParams testCfg testH "GET" "/some/path" "bob"
            "N" "1" "cn" "MD5") "nc" ++ "\"" :=
  check_auth_authinfo_format testCfg testEnv testReq
    (validAuthParams testCfg testH "GET" "/some/path" "bob" "N" "1" "cn" "MD5")
    [("N", ⟨0, 0⟩)] 5
    "qop=\"auth\", rspauth=\"h(h(bob:example.com:secret):N:1:cn:auth:h(:/some/path))\", cnonce=\"cn\", nc=\"1\""
    (by decide)

/-- Concrete request whose path has the digest `uri` value `/api` as a
proper prefix. -/
def apiReq : RequestS :=
  { Method := "GET", RequestURI := "/api/sub/resource"
    URLPath := some "/api/sub/resource" }

/-- Modelled from the spec (§4.5 step 4), for comparison against the code's
`uriOk`: the fallback accepts exactly when the parse succeeds, the parsed
path's byte length is at most the request path's, and the request path starts
with the parsed path. -/
def uriSpecMatch (env : Env) (r : RequestS) (uri : String) : Prop :=
  ∃ uPath rPath, env.urlParsePath uri = some uPath ∧ r.URLPath = some rPath ∧
    uPath.utf8ByteSize ≤ rPath.utf8ByteSize ∧ strStartsWith rPath uPath = true

/-- C8: the URI check passes exactly on a literal `RequestURI` match or on
the spec's parse-and-prefix fallback; concretely, digest uri `/api` against
request path `/api/sub/resource` is Accepted through the full verifier, and
digest uri `/other` is Rejected. -/
theorem check_auth_uri_matching :
    (∀ env r uri, uriOk env r uri = true ↔
      (r.RequestURI = uri ∨ uriSpecMatch env r uri)) ∧
    (CheckAuth testCfg testEnv apiReq
      (some (validAuthParams testCfg testH "GET" "/api" "bob" "N2" "1" "cn"
        "MD5")) [("N2", ⟨0, 0⟩)] 7).1.1 = "bob" ∧
    CheckAuth testCfg testEnv apiReq
      (some (validAuthParams testCfg testH "GET" "/other" "bob" "N2" "1" "cn"
        "MD5")) [("N2", ⟨0, 0⟩)] 7
      = (("", none), [("N2", ⟨0, 0⟩)]) := by
  refine ⟨?_, by decide, by decide⟩
  intro env r uri
  constructor
  · intro h
    rw [uriOk] at h
    split_ifs at h with heq
    · exact Or.inl (eq_of_beq heq)
    · cases hp : env.urlParsePath uri with
      | none => rw [hp] at h; simp at h
      | some uPath =>
        cases hrp : r.URLPath with
        | none => rw [hp, hrp] at h; simp at h
        | some rPath =>
          rw [hp, hrp] at h
          by_cases hlen : rPath.utf8ByteSize < uPath.utf8ByteSize
          · simp [hlen] at h
          · simp only [if_neg hlen] at h
            exact Or.inr ⟨uPath, rPath, hp, hrp, Nat.le_of_not_lt hlen, h⟩
  · intro h
    rcases h with heq | ⟨uPath, rPath, hp, hrp, hle, hpre⟩
    · simp [uriOk, heq]
    · rw [uriOk]
      split_ifs with heq
      · rfl
      · rw [hp, hrp]
        simp only [if_neg (Nat.not_lt.mpr hle)]
        exact hpre

/-- Configuration under which the purge trigger fires with
`ClientCacheTolerance * 2` exceeding the cache size: size 0, tolerance 2. -/
def overflowCfg : DigestAuth :=
  { testCfg with ClientCacheSize := 0, ClientCacheTolerance := 2 }

/-- C3: with `ClientCacheSize = 0` and `ClientCacheTolerance = 2`, three
issued challenges exceed the trigger threshold, and the triggered
`Purge(ClientCacheTolerance * 2) = Purge 4` faults (Go panics on the slice
expression `cache[:4]` over 3 entries, digest.go:79), as does the `RequireAuth`
issuance that triggers it — refuting the claim that `Purge(count)` completes
for every `count ≥ 0` and every cache state. -/
theorem purge_overcount_fault :
    issueChallenges overflowCfg 3 = some (baseCache 3) ∧
    (baseCache 3).length >
      overflowCfg.ClientCacheSize + overflowCfg.ClientCacheTolerance ∧
    Purge (baseCache 3) (overflowCfg.ClientCacheTolerance * 2) = none ∧
    RequireAuthCacheStep overflowCfg (baseCache 3) (nonceName 3) 3 = none := by
  decide

/-- C5: the session check race.  `CheckAuth` holds only the shared lock
(`RLock`, digest.go:134) across the nonce lookup and the counter update, so
the interleaving model `runSched` admits a schedule in which two concurrent
requests with the same nonce and the same `nc = 2` against a stored counter
of 1 both read before either writes and are both accepted; under the spec's
single exclusive-lock critical section (`exclusiveRun`) the two sections
serialize and exactly one of them is accepted. -/
theorem shared_lock_session_race :
    runSched 2 [true, false, true, false] ⟨1, .start, .start⟩
      = ⟨2, .done true, .done true⟩ ∧
    exclusiveRun 2 1 = (true, false) ∧
    exclusiveRun 2 1 ≠ (true, true) := by
  decide

theorem insertByLastSeen_cons_of_lt (x y : String × Int) (t : List (String × Int))
    (h : x.2 < y.2) : insertByLastSeen x (y :: t) = x :: y :: t := by
  simp [insertByLastSeen, h]

theorem digestCacheSort_of_chain' (l : List (String × Int))
    (hl : List.Chain' (fun a b => a.2 < b.2) l) : digestCacheSort l = l := by
  induction l with
  | nil => rfl
  | cons a t ih =>
    have hs : digestCacheSort t = t := ih hl.tail
    show insertByLastSeen a (digestCacheSort t) = a :: t
    rw [hs]
    cases t with
    | nil => rfl
    | cons b t2 =>
      exact insertByLastSeen_cons_of_lt a b t2 (List.chain'_cons.mp hl).1

theorem chain'_baseCacheProj (m : Nat) :
    List.Chain' (fun a b : String × Int => a.2 < b.2)
      ((List.range m).map (fun i => (nonceName i, Int.ofNat i))) := by
  rw [List.chain'_map]
  cases m with
  | zero => simp
  | succ k =>
    rw [List.chain'_range_succ]
    intro i _
    show Int.ofNat i < Int.ofNat i.succ
    exact Int.ofNat_lt.mpr (Nat.lt_succ_self i)

theorem nonceName_inj {i j : Nat} (h : nonceName i = nonceName j) : i = j := by
  simpa [nonceName] using congrArg (fun s => s.data.length) h

theorem baseCache_keys_nodup (m : Nat) :
    ((baseCache m).map Prod.fst).Nodup := by
  rw [baseCache, List.map_map]
  exact (List.nodup_range m).map (fun i j h => nonceName_inj h)

theorem cacheDelete_of_not_mem (c : Cache) (k : String)
    (h : ∀ p ∈ c, p.1 ≠ k) : cacheDelete c k = c := by
  rw [cacheDelete, List.filter_eq_self]
  intro p hp
  simpa using h p hp

theorem foldl_delete_drop :
    ∀ (c : Cache) (m : Nat), (c.map Prod.fst).Nodup →
      ((c.map (fun p => (p.1, p.2.last_seen))).take m).foldl
        (fun acc e => cacheDelete acc e.1) c = c.drop m := by
  intro c
  induction c with
  | nil => intro m _; simp
  | cons p t ih =>
    intro m hnd
    have hnds : (p.1 :: t.map Prod.fst).Nodup := by simpa using hnd
    have hmem : p.1 ∉ t.map Prod.fst := (List.nodup_cons.mp hnds).1
    have hnd' : (t.map Prod.fst).Nodup := (List.nodup_cons.mp hnds).2
    have hknot : ∀ q ∈ t, q.1 ≠ p.1 := fun q hq hqe =>
      hmem (hqe ▸ List.mem_map_of_mem Prod.fst hq)
    cases m with
    | zero => rfl
    | succ m' =>
      have hdel : cacheDelete (p :: t) p.1 = t := by
        rw [cacheDelete, List.filter_cons]
        simp only [bne_self_eq_false, Bool.false_eq_true, if_false]
        exact cacheDelete_of_not_mem t p.1 hknot
      show (((p.1, p.2.last_seen) :: t.map (fun p => (p.1, p.2.last_seen))).take
          (m' + 1)).foldl (fun acc e => cacheDelete acc e.1) (p :: t)
        = (p :: t).drop (m' + 1)
      rw [List.take_succ_cons, List.foldl_cons]
      show ((t.map (fun p => (p.1, p.2.last_seen))).take m').foldl
          (fun acc e => cacheDelete acc e.1) (cacheDelete (p :: t) p.1)
        = t.drop m'
      rw [hdel]
      exact ih m' hnd'

theorem baseCache_succ (k : Nat) :
    baseCache (k + 1) = baseCache k ++ [(nonceName k, ⟨0, Int.ofNat k⟩)] := by
  simp [baseCache, List.range_succ]

theorem baseCache_length (k : Nat) : (baseCache k).length = k := by
  simp [baseCache]

theorem baseCache_fresh (k j : Nat) (hj : k ≤ j) :
    ∀ p ∈ baseCache k, p.1 ≠ nonceName j := by
  intro p hp
  rw [baseCache] at hp
  obtain ⟨i, hik, rfl⟩ := List.mem_map.mp hp
  simp only [List.mem_range] at hik
  intro hbad
  have := nonceName_inj hbad
  omega

theorem cacheInsert_append (c : Cache) (k : String) (v : digest_client)
    (h : ∀ p ∈ c, p.1 ≠ k) : cacheInsert c k v = c ++ [(k, v)] := by
  have hf : c.find? (fun p => p.1 == k) = none :=
    List.find?_eq_none.mpr (fun p hp => by simpa using h p hp)
  simp [cacheInsert, hf]

/-- The first `k ≤ ClientCacheSize + ClientCacheTolerance + 1` issuances never
trigger the purge, so the cache is exactly the issued sessions in order. -/
theorem issueChallenges_eq (cfg : DigestAuth) :
    ∀ k, k ≤ cfg.ClientCacheSize + cfg.ClientCacheTolerance + 1 →
      issueChallenges cfg k = some (baseCache k) := by
  intro k
  induction k with
  | zero => intro _; rfl
  | succ k ih =>
    intro hk
    have hk' := Nat.le_of_succ_le hk
    show (issueChallenges cfg k).bind
        (fun c => RequireAuthCacheStep cfg c (nonceName k) (Int.ofNat k))
      = some (baseCache (k + 1))
    rw [ih hk']
    show RequireAuthCacheStep cfg (baseCache k) (nonceName k) (Int.ofNat k)
      = some (baseCache (k + 1))
    rw [RequireAuthCacheStep]
    have hno : ¬ ((baseCache k).length >
        cfg.ClientCacheSize + cfg.ClientCacheTolerance) := by
      rw [baseCache_length]; omega
    rw [if_neg hno]
    show some (cacheInsert (baseCache k) (nonceName k) ⟨0, Int.ofNat k⟩)
      = some (baseCache (k + 1))
    rw [cacheInsert_append _ _ _ (baseCache_fresh k k le_rfl), baseCache_succ]

/-- On the issuance-ordered cache (timestamps strictly increasing), `Purge`
removes exactly the `count` oldest entries: the sort fixes the list and the
delete fold drops its first `count` elements. -/
theorem purge_baseCache (m count : Nat) (hc : count ≤ m) :
    Purge (baseCache m) count = some ((baseCache m).drop count) := by
  have hproj : (baseCache m).map (fun p => (p.1, p.2.last_seen))
      = (List.range m).map (fun i => (nonceName i, Int.ofNat i)) := by
    rw [baseCache, List.map_map]
    rfl
  have hsorted : digestCacheSort
        ((baseCache m).map (fun p => (p.1, p.2.last_seen)))
      = (baseCache m).map (fun p => (p.1, p.2.last_seen)) := by
    rw [hproj]
    exact digestCacheSort_of_chain' _ (chain'_baseCacheProj m)
  rw [Purge]
  simp only [hsorted]
  have hlen : ((baseCache m).map (fun p => (p.1, p.2.last_seen))).length = m := by
    rw [List.length_map, baseCache_length]
  rw [if_pos (by rw [hlen]; exact hc)]
  exact congrArg some
    (foldl_delete_drop (baseCache m) count (baseCache_keys_nodup m))

/-- C6 (amended): provided `1 ≤ ClientCacheTolerance` and
`2 * ClientCacheTolerance ≤ ClientCacheSize + ClientCacheTolerance + 1` (so
the purge slice does not fault), issuing `targetSize + tolerance + 1`
challenges triggers no purge, and the next issuance purges exactly the
`2 * tolerance` entries with the smallest `lastSeenTimestamp` before
registering the new nonce, leaving the post-purge size
`targetSize + tolerance + 1 - 2 * tolerance`, strictly below the pre-purge
threshold, with precisely the most recently issued entries preserved. -/
theorem require_auth_cache_bound (cfg : DigestAuth)
    (hT : 1 ≤ cfg.ClientCacheTolerance)
    (hTS : cfg.ClientCacheTolerance * 2
      ≤ cfg.ClientCacheSize + cfg.ClientCacheTolerance + 1) :
    issueChallenges cfg (cfg.ClientCacheSize + cfg.ClientCacheTolerance + 1)
      = some (baseCache (cfg.ClientCacheSize + cfg.ClientCacheTolerance + 1)) ∧
    (baseCache (cfg.ClientCacheSize + cfg.ClientCacheTolerance + 1)).length
      > cfg.ClientCacheSize + cfg.ClientCacheTolerance ∧
    Purge (baseCache (cfg.ClientCacheSize + cfg.ClientCacheTolerance + 1))
        (cfg.ClientCacheTolerance * 2)
      = some ((baseCache (cfg.ClientCacheSize + cfg.ClientCacheTolerance
          + 1)).drop (cfg.ClientCacheTolerance * 2)) ∧
    ((baseCache (cfg.ClientCacheSize + cfg.ClientCacheTolerance + 1)).drop
        (cfg.ClientCacheTolerance * 2)).length
      < cfg.ClientCacheSize + cfg.ClientCacheTolerance ∧
    RequireAuthCacheStep cfg
        (baseCache (cfg.ClientCacheSize + cfg.ClientCacheTolerance + 1))
        (nonceName (cfg.ClientCacheSize + cfg.ClientCacheTolerance + 1))
        (Int.ofNat (cfg.ClientCacheSize + cfg.ClientCacheTolerance + 1))
      = some ((baseCache (cfg.ClientCacheSize + cfg.ClientCacheTolerance
            + 1)).drop (cfg.ClientCacheTolerance * 2)
          ++ [(nonceName (cfg.ClientCacheSize + cfg.ClientCacheTolerance + 1),
               ⟨0, Int.ofNat (cfg.ClientCacheSize + cfg.ClientCacheTolerance
                 + 1)⟩)]) := by
  set S := cfg.ClientCacheSize with hS
  set T := cfg.ClientCacheTolerance with hTdef
  have h1 := issueChallenges_eq cfg (S + T + 1) le_rfl
  have h2 : (baseCache (S + T + 1)).length > S + T := by
    rw [baseCache_length]; omega
  have h3 := purge_baseCache (S + T + 1) (T * 2) (by omega)
  have h4 : ((baseCache (S + T + 1)).drop (T * 2)).length < S + T := by
    rw [List.length_drop, baseCache_length]; omega
  have hfresh : ∀ p ∈ (baseCache (S + T + 1)).drop (T * 2),
      p.1 ≠ nonceName (S + T + 1) := fun p hp =>
    baseCache_fresh (S + T + 1) (S + T + 1) le_rfl p (List.drop_subset _ _ hp)
  refine ⟨h1, h2, h3, h4, ?_⟩
  rw [RequireAuthCacheStep]
  simp only [if_pos h2, h3, Option.map_some']
  rw [cacheInsert_append _ _ _ hfresh]

/-- Small configuration for the cache-bound witness: target size 1,
tolerance 1. -/
def smallCfg : DigestAuth :=
  { testCfg with ClientCacheSize := 1, ClientCacheTolerance := 1 }

/-- C6 witness: the full purge cycle at target size 1, tolerance 1. -/
theorem require_auth_cache_bound_witness :
    issueChallenges smallCfg 3 = some (baseCache 3) ∧
    (baseCache 3).length > 2 ∧
    Purge (baseCache 3) 2 = some ((baseCache 3).drop 2) ∧
    ((baseCache 3).drop 2).length < 2 ∧
    RequireAuthCacheStep smallCfg (baseCache 3) (nonceName 3) (Int.ofNat 3)
      = some ((baseCache 3).drop 2 ++ [(nonceName 3, ⟨0, Int.ofNat 3⟩)]) :=
  require_auth_cache_bound smallCfg (by decide) (by decide)

/-- Degenerate configuration refuting the unconditional cache-bound claim. -/
def zeroCfg : DigestAuth :=
  { testCfg with ClientCacheSize := 0, ClientCacheTolerance := 0 }

/-- C6 counterexample: with `ClientCacheSize = ClientCacheTolerance = 0`,
after `targetSize + tolerance + 1 = 1` issuance the next issuance takes the
purge path (the trigger holds) yet removes `2 * 0 = 0` entries, so neither
the post-purge size nor the post-registration size is strictly below the
pre-purge threshold `targetSize + tolerance = 0`. -/
theorem cache_bound_zero_tolerance :
    issueChallenges zeroCfg 1 = some (baseCache 1) ∧
    (baseCache 1).length
      > zeroCfg.ClientCacheSize + zeroCfg.ClientCacheTolerance ∧
    RequireAuthCacheStep zeroCfg (baseCache 1) (nonceName 1) (Int.ofNat 1)
      = some (baseCache 1 ++ [(nonceName 1, ⟨0, Int.ofNat 1⟩)]) ∧
    ¬ ((baseCache 1).length
      < zeroCfg.ClientCacheSize + zeroCfg.ClientCacheTolerance) ∧
    ¬ ((baseCache 1 ++ [(nonceName 1, (⟨0, Int.ofNat 1⟩ : digest_client))]).length
      < zeroCfg.ClientCacheSize + zeroCfg.ClientCacheTolerance) := by
  decide

end GoHttpAuth
